import Mathlib

/-!
Shallow embedding of the server-side bullet simulation of the obsidio
repository (src/server/Bullet.js), together with the collaborator
contracts (Entity base class, Player, Construct, Util.inWorld,
Constants.CONSTRUCT_TYPES) that the spec describes but whose source
files are not part of the inspected tree.

Numeric values of the JavaScript code are embedded into an arbitrary
linear ordered field so that the theorems hold over the reals while
concrete witnesses evaluate over the rationals.
-/

namespace Obsidio

/-- Modelled from the spec: Construct type is enumerated turret/wall/other,
with a distinguished WALL variant (Constants.CONSTRUCT_TYPES.WALL); the
Constants module is not in the inspected source tree. -/
inductive ConstructType where
  | TURRET : ConstructType
  | WALL : ConstructType
  | OTHER : ConstructType
deriving DecidableEq, Repr

/-- State of a bullet, mirroring the fields assigned by the constructor
function Bullet(x, y, vx, vy, orientation, hitboxSize, source, damage) in
src/server/Bullet.js, plus the per-tick time bookkeeping fields of the
inherited Entity base (lastUpdateTime, updateTimeDifference), which the
spec describes in section 4.1. -/
structure Bullet (α : Type) where
  x : α
  y : α
  vx : α
  vy : α
  orientation : α
  hitboxSize : α
  source : String
  damage : α
  distanceTraveled : α
  shouldExist : Bool
  lastUpdateTime : α
  updateTimeDifference : α
deriving DecidableEq, Repr

/-- Modelled from the spec: the Player collaborator contract (section 6):
identity, position, health, mutable kill counter, circular hitbox.
The Player source file is not in the inspected tree. -/
structure Player (α : Type) where
  id : String
  x : α
  y : α
  hitboxSize : α
  health : α
  kills : Nat
deriving DecidableEq, Repr

/-- Modelled from the spec: the Construct collaborator contract
(section 6): owner identity, enumerated type, position, health, circular
hitbox. The Construct source file is not in the inspected tree. -/
structure Construct (α : Type) where
  owner : String
  type : ConstructType
  x : α
  y : α
  hitboxSize : α
  health : α
deriving DecidableEq, Repr

variable {α : Type} [LinearOrderedField α]

/-- Bullet.VELOCITY_MAGNITUDE = 0.85 (pixels per millisecond). -/
def VELOCITY_MAGNITUDE (α : Type) [LinearOrderedField α] : α := 17 / 20

/-- Bullet.DEFAULT_DAMAGE = 1 (health points). -/
def DEFAULT_DAMAGE (α : Type) [LinearOrderedField α] : α := 1

/-- Bullet.MAX_TRAVEL_DISTANCE = 1000 (pixels). -/
def MAX_TRAVEL_DISTANCE (α : Type) [LinearOrderedField α] : α := 1000

/-- Bullet.DEFAULT_HITBOX_SIZE = 4 (pixels, circular radius). -/
def DEFAULT_HITBOX_SIZE (α : Type) [LinearOrderedField α] : α := 4

/-- The constructor function Bullet(x, y, vx, vy, orientation, hitboxSize,
source, damage): assigns the eight arguments and sets
distanceTraveled to 0 and shouldExist to true. The time bookkeeping of
the Entity base starts at 0 (modelled from the spec, section 4.1). -/
def Bullet.init (x y vx vy orientation hitboxSize : α) (source : String)
    (damage : α) : Bullet α :=
  { x := x, y := y, vx := vx, vy := vy, orientation := orientation,
    hitboxSize := hitboxSize, source := source, damage := damage,
    distanceTraveled := 0, shouldExist := true,
    lastUpdateTime := 0, updateTimeDifference := 0 }

/-- Bullet.create(x, y, direction, source): computes
vx = VELOCITY_MAGNITUDE * cos(direction - pi / 2) and
vy = VELOCITY_MAGNITUDE * sin(direction - pi / 2), takes the default
hitbox size and damage, and calls the constructor. -/
noncomputable def Bullet.create (x y direction : ℝ) (source : String) :
    Bullet ℝ :=
  Bullet.init x y
    (VELOCITY_MAGNITUDE ℝ * Real.cos (direction - Real.pi / 2))
    (VELOCITY_MAGNITUDE ℝ * Real.sin (direction - Real.pi / 2))
    direction (DEFAULT_HITBOX_SIZE ℝ) source (DEFAULT_DAMAGE ℝ)

/-- Modelled from the spec: the Entity base update (sections 4.1 and 4.2):
refreshes the elapsed time since the previous tick and advances position
by velocity times elapsed time. Entity.js is not in the inspected tree;
the current wall-clock time is passed in explicitly. -/
def Entity.update (b : Bullet α) (currentTime : α) : Bullet α :=
  let dt := currentTime - b.lastUpdateTime
  { b with updateTimeDifference := dt, lastUpdateTime := currentTime,
           x := b.x + b.vx * dt, y := b.y + b.vy * dt }

/-- Modelled from the spec: isCollidedWith is a circular-overlap test
using the hitbox radii (sections 6 and the glossary); the Player source
file is not in the inspected tree. -/
def Player.isCollidedWith (p : Player α) (b : Bullet α) : Bool :=
  decide ((p.x - b.x) ^ 2 + (p.y - b.y) ^ 2 ≤ (p.hitboxSize + b.hitboxSize) ^ 2)

/-- Modelled from the spec: Player.damage(amount) removes amount health
points (section 6). -/
def Player.damage (p : Player α) (amount : α) : Player α :=
  { p with health := p.health - amount }

/-- Modelled from the spec: the death predicate is health ≤ 0
(section 3). -/
def Player.isDead (p : Player α) : Bool :=
  decide (p.health ≤ 0)

/-- Modelled from the spec: isCollidedWith is a circular-overlap test
using the hitbox radii (section 6); the Construct source file is not in
the inspected tree. -/
def Construct.isCollidedWith (c : Construct α) (b : Bullet α) : Bool :=
  decide ((c.x - b.x) ^ 2 + (c.y - b.y) ^ 2 ≤ (c.hitboxSize + b.hitboxSize) ^ 2)

/-- Modelled from the spec: Construct.damage(amount) removes amount
health points (section 6). -/
def Construct.damage (c : Construct α) (amount : α) : Construct α :=
  { c with health := c.health - amount }

/-- The motion-and-distance phase of Bullet.prototype.update (the first
two statements): the Entity base update followed by
this.distanceTraveled += Bullet.VELOCITY_MAGNITUDE *
this.updateTimeDifference. -/
def Bullet.move (b : Bullet α) (currentTime : α) : Bullet α :=
  let b0 := Entity.update b currentTime
  { b0 with distanceTraveled :=
      b0.distanceTraveled + VELOCITY_MAGNITUDE α * b0.updateTimeDifference }

/-- The expiry condition of Bullet.prototype.update:
this.distanceTraveled > Bullet.MAX_TRAVEL_DISTANCE ||
!Util.inWorld(this.x, this.y). -/
def Bullet.expires (b : Bullet α) (inWorld : α → α → Bool) : Prop :=
  b.distanceTraveled > MAX_TRAVEL_DISTANCE α ∨ ¬ inWorld b.x b.y

instance (b : Bullet α) (inWorld : α → α → Bool) :
    Decidable (b.expires inWorld) := by
  unfold Bullet.expires
  infer_instance

/-- The guard of the player loop in Bullet.prototype.update:
this.source != players[i].id && players[i].isCollidedWith(this). -/
def Bullet.playerEligible (b : Bullet α) (p : Player α) : Bool :=
  (b.source != p.id) && p.isCollidedWith b

/-- The guard of the construct loop in Bullet.prototype.update:
(this.source != constructs[i].owner ||
 constructs[i].type == Constants.CONSTRUCT_TYPES.WALL) &&
constructs[i].isCollidedWith(this). -/
def Bullet.constructEligible (b : Bullet α) (c : Construct α) : Bool :=
  ((b.source != c.owner) || (c.type == ConstructType.WALL)) && c.isCollidedWith b

/-- The player loop of Bullet.prototype.update: walks the registry values
in order; at the first player passing the guard, applies damage to that
player and reports whether the damaged player is now dead. Returns none
when no player passes the guard. -/
def Bullet.scanPlayers (b : Bullet α) :
    List (Player α) → Option (List (Player α) × Bool)
  | [] => none
  | p :: rest =>
    if b.playerEligible p then
      let hit := p.damage b.damage
      some (hit :: rest, hit.isDead)
    else
      match b.scanPlayers rest with
      | none => none
      | some (ps, dead) => some (p :: ps, dead)

/-- The kill-credit step: clients.get(this.source) followed by
killingPlayer.kills++. On a map, get finds the entry keyed by the source
identity; when it is absent, the increment dereferences an absent value,
which in the JavaScript source raises a TypeError: this is modelled by
returning none. -/
def creditKill (source : String) : List (Player α) → Option (List (Player α))
  | [] => none
  | p :: rest =>
    if p.id == source then some ({ p with kills := p.kills + 1 } :: rest)
    else
      match creditKill source rest with
      | none => none
      | some ps => some (p :: ps)

/-- The construct loop of Bullet.prototype.update: walks the construct
array in order; at the first construct passing the guard, applies damage
to that construct. Returns none when no construct passes the guard. -/
def Bullet.scanConstructs (b : Bullet α) :
    List (Construct α) → Option (List (Construct α))
  | [] => none
  | c :: rest =>
    if b.constructEligible c then
      some (c.damage b.damage :: rest)
    else
      match b.scanConstructs rest with
      | none => none
      | some cs => some (c :: cs)

/-- Result of one call to Bullet.prototype.update: the new bullet state,
the registry contents, the construct array, and whether the call raised a
fault (the TypeError of the kill-credit step when the source identity is
absent). On a fault, the mutations already performed persist and the
statements after the raising line never execute. -/
structure UpdateResult (α : Type) where
  bullet : Bullet α
  clients : List (Player α)
  constructs : List (Construct α)
  fault : Bool
deriving Repr

/-- Bullet.prototype.update(clients, constructs): calls the Entity base
update, increments distanceTraveled by VELOCITY_MAGNITUDE *
updateTimeDifference, expires the bullet when the distance strictly
exceeds MAX_TRAVEL_DISTANCE or the position left the world, otherwise
scans the players (crediting a kill when the damaged player died) and
then the constructs, marking the bullet dead after the first hit. The
world-membership test Util.inWorld is not in the inspected tree and is
passed in as a predicate on coordinates. -/
def Bullet.update (b : Bullet α) (inWorld : α → α → Bool) (currentTime : α)
    (clients : List (Player α)) (constructs : List (Construct α)) :
    UpdateResult α :=
  let b1 := b.move currentTime
  if b1.expires inWorld then
    { bullet := { b1 with shouldExist := false }, clients := clients,
      constructs := constructs, fault := false }
  else
    match b1.scanPlayers clients with
    | some (clients1, dead) =>
      if dead then
        match creditKill b1.source clients1 with
        | some clients2 =>
          { bullet := { b1 with shouldExist := false }, clients := clients2,
            constructs := constructs, fault := false }
        | none =>
          { bullet := b1, clients := clients1, constructs := constructs,
            fault := true }
      else
        { bullet := { b1 with shouldExist := false }, clients := clients1,
          constructs := constructs, fault := false }
    | none =>
      match b1.scanConstructs constructs with
      | some constructs1 =>
        { bullet := { b1 with shouldExist := false }, clients := clients,
          constructs := constructs1, fault := false }
      | none =>
        { bullet := b1, clients := clients, constructs := constructs,
          fault := false }

/-- Total kills credited to a given identity in a registry (the sum over
all entries carrying that identity; with unique identities this is that
kill counter of that player). -/
def killsOf (l : List (Player α)) (s : String) : Nat :=
  ((l.filter (fun p => p.id == s)).map Player.kills).sum

/-- The healths of the registry entries carrying a given identity, in
registry order. -/
def healthsOf (l : List (Player α)) (s : String) : List α :=
  (l.filter (fun p => p.id == s)).map Player.health

/-- A world-membership predicate that accepts every position (used to
exercise the update on concrete inputs). -/
def openWorld : ℚ → ℚ → Bool := fun _ _ => true

/-- A concrete test bullet over the rationals: at the origin, zero
velocity, fired by the identity shooter, damage 1. -/
def bTest : Bullet ℚ :=
  { x := 0, y := 0, vx := 0, vy := 0, orientation := 0, hitboxSize := 4,
    source := "shooter", damage := 1, distanceTraveled := 0,
    shouldExist := true, lastUpdateTime := 0, updateTimeDifference := 0 }

/-- The concrete test bullet with a chosen travel distance already
accumulated. -/
def bDist (d : ℚ) : Bullet ℚ := { bTest with distanceTraveled := d }

/-- A concrete player colliding with bTest, one health point, killed by
one hit. -/
def pVictim : Player ℚ :=
  { id := "victim", x := 0, y := 0, hitboxSize := 10, health := 1, kills := 0 }

/-- A concrete player colliding with bTest, two health points, surviving
one hit. -/
def pTough : Player ℚ :=
  { id := "tough", x := 0, y := 0, hitboxSize := 10, health := 2, kills := 0 }

/-- A concrete registry entry for the shooter itself, positioned away
from the bullet. -/
def pShooter : Player ℚ :=
  { id := "shooter", x := 500, y := 500, hitboxSize := 10, health := 5,
    kills := 0 }

/-- A wall construct owned by the shooter, colliding with bTest. -/
def cOwnWall : Construct ℚ :=
  { owner := "shooter", type := ConstructType.WALL, x := 0, y := 0,
    hitboxSize := 10, health := 6 }

/-- A turret construct owned by the shooter, colliding with bTest. -/
def cOwnTurret : Construct ℚ :=
  { owner := "shooter", type := ConstructType.TURRET, x := 0, y := 0,
    hitboxSize := 10, health := 6 }

/-- A turret construct owned by another player, colliding with bTest. -/
def cEnemyTurret : Construct ℚ :=
  { owner := "other", type := ConstructType.TURRET, x := 0, y := 0,
    hitboxSize := 10, health := 6 }

end Obsidio

namespace Obsidio

variable {α : Type} [LinearOrderedField α]

@[simp] theorem move_vx (b : Bullet α) (t : α) : (b.move t).vx = b.vx := rfl

@[simp] theorem move_vy (b : Bullet α) (t : α) : (b.move t).vy = b.vy := rfl

@[simp] theorem move_orientation (b : Bullet α) (t : α) :
    (b.move t).orientation = b.orientation := rfl

@[simp] theorem move_hitboxSize (b : Bullet α) (t : α) :
    (b.move t).hitboxSize = b.hitboxSize := rfl

@[simp] theorem move_source (b : Bullet α) (t : α) :
    (b.move t).source = b.source := rfl

@[simp] theorem move_damage (b : Bullet α) (t : α) :
    (b.move t).damage = b.damage := rfl

@[simp] theorem move_shouldExist (b : Bullet α) (t : α) :
    (b.move t).shouldExist = b.shouldExist := rfl

theorem move_x (b : Bullet α) (t : α) :
    (b.move t).x = b.x + b.vx * (t - b.lastUpdateTime) := rfl

theorem move_y (b : Bullet α) (t : α) :
    (b.move t).y = b.y + b.vy * (t - b.lastUpdateTime) := rfl

theorem move_distanceTraveled (b : Bullet α) (t : α) :
    (b.move t).distanceTraveled =
      b.distanceTraveled + VELOCITY_MAGNITUDE α * (t - b.lastUpdateTime) := rfl

theorem update_early (b : Bullet α) (inW : α → α → Bool) (t : α)
    (cl : List (Player α)) (cs : List (Construct α))
    (h : (b.move t).expires inW) :
    b.update inW t cl cs =
      ⟨{ b.move t with shouldExist := false }, cl, cs, false⟩ := by
  simp only [Bullet.update]
  rw [if_pos h]

theorem scanPlayers_eq_none_iff (b : Bullet α) (l : List (Player α)) :
    b.scanPlayers l = none ↔ ∀ p ∈ l, b.playerEligible p = false := by
  induction l with
  | nil => simp [Bullet.scanPlayers]
  | cons p rest ih =>
    by_cases h : b.playerEligible p
    · simp [Bullet.scanPlayers, h]
    · rw [Bool.not_eq_true] at h
      cases hrest : b.scanPlayers rest with
      | none =>
        simp only [Bullet.scanPlayers, h, Bool.false_eq_true, if_false, hrest,
          List.mem_cons, forall_eq_or_imp, true_iff, h, true_and]
        exact (ih.mp hrest)
      | some pr =>
        simp only [Bullet.scanPlayers, h, Bool.false_eq_true, if_false, hrest]
        constructor
        · intro hc; cases hc
        · intro hall
          exact absurd hrest (by rw [ih.mpr (fun q hq => hall q (List.mem_cons_of_mem p hq))]; simp)

theorem scanPlayers_hit (b : Bullet α) (l1 : List (Player α)) (p : Player α)
    (l2 : List (Player α)) (h1 : ∀ q ∈ l1, b.playerEligible q = false)
    (hp : b.playerEligible p = true) :
    b.scanPlayers (l1 ++ p :: l2) =
      some (l1 ++ p.damage b.damage :: l2, (p.damage b.damage).isDead) := by
  induction l1 with
  | nil => simp [Bullet.scanPlayers, hp]
  | cons q l1 ih =>
    have hq : b.playerEligible q = false := h1 q (List.mem_cons_self q l1)
    have ih2 := ih (fun r hr => h1 r (List.mem_cons_of_mem q hr))
    simp [Bullet.scanPlayers, hq, ih2]

theorem scanPlayers_eq_some (b : Bullet α) (l : List (Player α))
    (ps : List (Player α)) (dead : Bool) (h : b.scanPlayers l = some (ps, dead)) :
    ∃ l1 p l2, l = l1 ++ p :: l2 ∧ (∀ q ∈ l1, b.playerEligible q = false) ∧
      b.playerEligible p = true ∧ ps = l1 ++ p.damage b.damage :: l2 ∧
      dead = (p.damage b.damage).isDead := by
  induction l generalizing ps dead with
  | nil => simp [Bullet.scanPlayers] at h
  | cons p rest ih =>
    by_cases hp : b.playerEligible p
    · refine ⟨[], p, rest, by simp, by simp, hp, ?_⟩
      simp only [Bullet.scanPlayers, hp, if_true] at h
      obtain ⟨h1, h2⟩ := Prod.mk.injEq .. ▸ (Option.some.injEq .. ▸ h)
      exact ⟨by simpa using h1.symm, by simpa using h2.symm⟩
    · rw [Bool.not_eq_true] at hp
      cases hrest : b.scanPlayers rest with
      | none => simp [Bullet.scanPlayers, hp, hrest] at h
      | some pr =>
        obtain ⟨ps', dead'⟩ := pr
        simp only [Bullet.scanPlayers, hp, Bool.false_eq_true, if_false, hrest] at h
        obtain ⟨h1, h2⟩ := Prod.mk.injEq .. ▸ (Option.some.injEq .. ▸ h)
        obtain ⟨l1, q, l2, rfl, hskip, helig, rfl, rfl⟩ := ih ps' dead' hrest
        refine ⟨p :: l1, q, l2, rfl, ?_, helig, ?_, ?_⟩
        · intro r hr
          rcases List.mem_cons.mp hr with rfl | hr2
          · exact hp
          · exact hskip r hr2
        · rw [← h1]; rfl
        · rw [← h2]

theorem scanConstructs_eq_none_iff (b : Bullet α) (l : List (Construct α)) :
    b.scanConstructs l = none ↔ ∀ c ∈ l, b.constructEligible c = false := by
  induction l with
  | nil => simp [Bullet.scanConstructs]
  | cons c rest ih =>
    by_cases h : b.constructEligible c
    · simp [Bullet.scanConstructs, h]
    · rw [Bool.not_eq_true] at h
      cases hrest : b.scanConstructs rest with
      | none =>
        simp only [Bullet.scanConstructs, h, Bool.false_eq_true, if_false, hrest,
          List.mem_cons, forall_eq_or_imp, true_iff, h, true_and]
        exact (ih.mp hrest)
      | some cs =>
        simp only [Bullet.scanConstructs, h, Bool.false_eq_true, if_false, hrest]
        constructor
        · intro hc; cases hc
        · intro hall
          exact absurd hrest (by rw [ih.mpr (fun d hd => hall d (List.mem_cons_of_mem c hd))]; simp)

theorem scanConstructs_hit (b : Bullet α) (l1 : List (Construct α))
    (c : Construct α) (l2 : List (Construct α))
    (h1 : ∀ d ∈ l1, b.constructEligible d = false)
    (hc : b.constructEligible c = true) :
    b.scanConstructs (l1 ++ c :: l2) = some (l1 ++ c.damage b.damage :: l2) := by
  induction l1 with
  | nil => simp [Bullet.scanConstructs, hc]
  | cons d l1 ih =>
    have hd : b.constructEligible d = false := h1 d (List.mem_cons_self d l1)
    have ih2 := ih (fun r hr => h1 r (List.mem_cons_of_mem d hr))
    simp [Bullet.scanConstructs, hd, ih2]

theorem scanConstructs_eq_some (b : Bullet α) (l : List (Construct α))
    (cs : List (Construct α)) (h : b.scanConstructs l = some cs) :
    ∃ l1 c l2, l = l1 ++ c :: l2 ∧ (∀ d ∈ l1, b.constructEligible d = false) ∧
      b.constructEligible c = true ∧ cs = l1 ++ c.damage b.damage :: l2 := by
  induction l generalizing cs with
  | nil => simp [Bullet.scanConstructs] at h
  | cons c rest ih =>
    by_cases hc : b.constructEligible c
    · refine ⟨[], c, rest, by simp, by simp, hc, ?_⟩
      simp only [Bullet.scanConstructs, hc, if_true] at h
      simpa using h.symm
    · rw [Bool.not_eq_true] at hc
      cases hrest : b.scanConstructs rest with
      | none => simp [Bullet.scanConstructs, hc, hrest] at h
      | some cs' =>
        simp only [Bullet.scanConstructs, hc, Bool.false_eq_true, if_false, hrest] at h
        obtain ⟨l1, d, l2, rfl, hskip, helig, rfl⟩ := ih cs' hrest
        refine ⟨c :: l1, d, l2, rfl, ?_, helig, by simpa using h.symm⟩
        intro r hr
        rcases List.mem_cons.mp hr with rfl | hr2
        · exact hc
        · exact hskip r hr2

theorem creditKill_eq_none_iff (s : String) (l : List (Player α)) :
    creditKill s l = none ↔ ∀ p ∈ l, (p.id == s) = false := by
  induction l with
  | nil => simp [creditKill]
  | cons p rest ih =>
    by_cases h : p.id == s
    · simp [creditKill, h]
      intro hne
      exact absurd (by simpa using h) hne
    · rw [Bool.not_eq_true] at h
      cases hrest : creditKill s rest with
      | none =>
        simp only [creditKill, h, Bool.false_eq_true, if_false, hrest,
          List.mem_cons, forall_eq_or_imp, true_iff, h, true_and]
        exact (ih.mp hrest)
      | some ps =>
        simp only [creditKill, h, Bool.false_eq_true, if_false, hrest]
        constructor
        · intro hc; cases hc
        · intro hall
          exact absurd hrest (by rw [ih.mpr (fun q hq => hall q (List.mem_cons_of_mem p hq))]; simp)

theorem creditKill_eq_some (s : String) (l l2 : List (Player α))
    (h : creditKill s l = some l2) :
    ∃ l1 p l3, l = l1 ++ p :: l3 ∧ (∀ q ∈ l1, (q.id == s) = false) ∧
      (p.id == s) = true ∧ l2 = l1 ++ { p with kills := p.kills + 1 } :: l3 := by
  induction l generalizing l2 with
  | nil => simp [creditKill] at h
  | cons p rest ih =>
    by_cases hp : p.id == s
    · refine ⟨[], p, rest, by simp, by simp, hp, ?_⟩
      simp only [creditKill, hp, if_true] at h
      simpa using h.symm
    · rw [Bool.not_eq_true] at hp
      cases hrest : creditKill s rest with
      | none => simp [creditKill, hp, hrest] at h
      | some ps =>
        simp only [creditKill, hp, Bool.false_eq_true, if_false, hrest] at h
        obtain ⟨l1, q, l3, rfl, hskip, hq, rfl⟩ := ih ps hrest
        refine ⟨p :: l1, q, l3, rfl, ?_, hq, by simpa using h.symm⟩
        intro r hr
        rcases List.mem_cons.mp hr with rfl | hr2
        · exact hp
        · exact hskip r hr2

theorem creditKill_isSome (s : String) (l : List (Player α))
    (h : ∃ p ∈ l, p.id = s) : ∃ l2, creditKill s l = some l2 := by
  cases hck : creditKill s l with
  | some l2 => exact ⟨l2, rfl⟩
  | none =>
    obtain ⟨p, hmem, hid⟩ := h
    have := (creditKill_eq_none_iff s l).mp hck p hmem
    rw [hid] at this
    simp at this

theorem creditKill_map_health (s : String) (l l2 : List (Player α))
    (h : creditKill s l = some l2) :
    l2.map Player.health = l.map Player.health := by
  obtain ⟨l1, p, l3, rfl, _, _, rfl⟩ := creditKill_eq_some s l l2 h
  simp

theorem killsOf_nil (s : String) : killsOf ([] : List (Player α)) s = 0 := rfl

theorem killsOf_cons (p : Player α) (l : List (Player α)) (s : String) :
    killsOf (p :: l) s = (if p.id == s then p.kills else 0) + killsOf l s := by
  by_cases h : p.id == s
  · simp [killsOf, List.filter_cons, h]
  · rw [Bool.not_eq_true] at h
    simp [killsOf, List.filter_cons, h]

theorem killsOf_append (l1 l2 : List (Player α)) (s : String) :
    killsOf (l1 ++ l2) s = killsOf l1 s + killsOf l2 s := by
  induction l1 with
  | nil => simp [killsOf_nil, killsOf]
  | cons p l1 ih => simp [killsOf_cons, ih]; ring

theorem healthsOf_nil (s : String) : healthsOf ([] : List (Player α)) s = [] := rfl

theorem healthsOf_cons (p : Player α) (l : List (Player α)) (s : String) :
    healthsOf (p :: l) s =
      (if p.id == s then [p.health] else []) ++ healthsOf l s := by
  by_cases h : p.id == s
  · simp [healthsOf, List.filter_cons, h]
  · rw [Bool.not_eq_true] at h
    simp [healthsOf, List.filter_cons, h]

theorem healthsOf_append (l1 l2 : List (Player α)) (s : String) :
    healthsOf (l1 ++ l2) s = healthsOf l1 s ++ healthsOf l2 s := by
  induction l1 with
  | nil => simp [healthsOf_nil, healthsOf]
  | cons p l1 ih =>
    rw [List.cons_append, healthsOf_cons, healthsOf_cons, ih, List.append_assoc]

theorem killsOf_creditKill (s : String) (l l2 : List (Player α))
    (h : creditKill s l = some l2) :
    killsOf l2 s = killsOf l s + 1 ∧
      ∀ s2, s2 ≠ s → killsOf l2 s2 = killsOf l s2 := by
  obtain ⟨l1, p, l3, rfl, _, hp, rfl⟩ := creditKill_eq_some s l l2 h
  constructor
  · simp [killsOf_append, killsOf_cons, hp]
    ring
  · intro s2 hs2
    have hps2 : (p.id == s2) = false := by
      have hid : p.id = s := by simpa using hp
      rw [hid]
      simp only [beq_eq_false_iff_ne, ne_eq]
      exact fun h2 => hs2 h2.symm
    simp [killsOf_append, killsOf_cons, hps2]

theorem healthsOf_creditKill (s2 : String) (s : String) (l l2 : List (Player α))
    (h : creditKill s l = some l2) :
    healthsOf l2 s2 = healthsOf l s2 := by
  obtain ⟨l1, p, l3, rfl, _, hp, rfl⟩ := creditKill_eq_some s l l2 h
  by_cases h2 : p.id == s2
  · simp [healthsOf_append, healthsOf_cons, h2]
  · rw [Bool.not_eq_true] at h2
    simp [healthsOf_append, healthsOf_cons, h2]

theorem playerEligible_id_ne (b : Bullet α) (p : Player α)
    (h : b.playerEligible p = true) : (p.id == b.source) = false := by
  simp only [Bullet.playerEligible, Bool.and_eq_true, bne_iff_ne, ne_eq] at h
  simpa using fun h2 => h.1 h2.symm

theorem update_playerHit (b : Bullet α) (inW : α → α → Bool) (t : α)
    (cl : List (Player α)) (cs : List (Construct α))
    (cl1 : List (Player α)) (dead : Bool)
    (hterm : ¬ (b.move t).expires inW)
    (hscan : (b.move t).scanPlayers cl = some (cl1, dead)) :
    b.update inW t cl cs =
      (if dead then
        (match creditKill b.source cl1 with
         | some cl2 => ⟨{ b.move t with shouldExist := false }, cl2, cs, false⟩
         | none => ⟨b.move t, cl1, cs, true⟩)
      else ⟨{ b.move t with shouldExist := false }, cl1, cs, false⟩) := by
  simp only [Bullet.update, hscan, if_neg hterm, move_source]

theorem update_constructHit (b : Bullet α) (inW : α → α → Bool) (t : α)
    (cl : List (Player α)) (cs : List (Construct α)) (cs1 : List (Construct α))
    (hterm : ¬ (b.move t).expires inW)
    (hp : (b.move t).scanPlayers cl = none)
    (hc : (b.move t).scanConstructs cs = some cs1) :
    b.update inW t cl cs =
      ⟨{ b.move t with shouldExist := false }, cl, cs1, false⟩ := by
  simp only [Bullet.update, hp, hc, if_neg hterm]

theorem update_noHit (b : Bullet α) (inW : α → α → Bool) (t : α)
    (cl : List (Player α)) (cs : List (Construct α))
    (hterm : ¬ (b.move t).expires inW)
    (hp : (b.move t).scanPlayers cl = none)
    (hc : (b.move t).scanConstructs cs = none) :
    b.update inW t cl cs = ⟨b.move t, cl, cs, false⟩ := by
  simp only [Bullet.update, hp, hc, if_neg hterm]

theorem expires_of_gt (b : Bullet α) (inW : α → α → Bool)
    (h : b.distanceTraveled > MAX_TRAVEL_DISTANCE α) : b.expires inW :=
  Or.inl h

theorem expires_of_out (b : Bullet α) (inW : α → α → Bool)
    (h : ¬ inW b.x b.y = true) : b.expires inW :=
  Or.inr h

theorem not_expires (b : Bullet α) (inW : α → α → Bool)
    (h1 : b.distanceTraveled ≤ MAX_TRAVEL_DISTANCE α)
    (h2 : inW b.x b.y = true) : ¬ b.expires inW := by
  unfold Bullet.expires
  rintro (hc | hc)
  · exact absurd hc (not_lt.mpr h1)
  · exact hc h2

theorem update_bullet_eq (b : Bullet α) (inW : α → α → Bool) (t : α)
    (cl : List (Player α)) (cs : List (Construct α)) :
    (b.update inW t cl cs).bullet = b.move t ∨
    (b.update inW t cl cs).bullet = { b.move t with shouldExist := false } := by
  by_cases hterm : (b.move t).expires inW
  · rw [update_early b inW t cl cs hterm]
    right
    rfl
  · cases hp : (b.move t).scanPlayers cl with
    | some pr =>
      obtain ⟨cl1, dead⟩ := pr
      rw [update_playerHit b inW t cl cs cl1 dead hterm hp]
      rcases Bool.eq_false_or_eq_true dead with hd | hd
      · rw [hd]
        cases hck : creditKill b.source cl1 with
        | some cl2 =>
          right
          simp [hck]
        | none =>
          left
          simp [hck]
      · rw [hd]
        simp only [Bool.false_eq_true, if_false]
        right
        trivial
    | none =>
      cases hc : (b.move t).scanConstructs cs with
      | some cs1 =>
        rw [update_constructHit b inW t cl cs cs1 hterm hp hc]
        right
        rfl
      | none =>
        rw [update_noHit b inW t cl cs hterm hp hc]
        left
        rfl

/-- C5: Bullet.create(x, y, d, source) returns a bullet whose velocity
components satisfy vx = S * cos(d - pi/2) and vy = S * sin(d - pi/2) for
the fixed speed S = VELOCITY_MAGNITUDE = 0.85; consequently the squared
speed vx^2 + vy^2 equals S^2 for every direction, a constant independent
of d. -/
theorem C5_create_velocity_components (x y d : ℝ) (source : String) :
    (Bullet.create x y d source).vx =
        VELOCITY_MAGNITUDE ℝ * Real.cos (d - Real.pi / 2) ∧
    (Bullet.create x y d source).vy =
        VELOCITY_MAGNITUDE ℝ * Real.sin (d - Real.pi / 2) ∧
    (Bullet.create x y d source).vx ^ 2 + (Bullet.create x y d source).vy ^ 2 =
        VELOCITY_MAGNITUDE ℝ ^ 2 := by
  refine ⟨rfl, rfl, ?_⟩
  show (VELOCITY_MAGNITUDE ℝ * Real.cos (d - Real.pi / 2)) ^ 2 +
      (VELOCITY_MAGNITUDE ℝ * Real.sin (d - Real.pi / 2)) ^ 2 = _
  rw [mul_pow, mul_pow, ← mul_add, Real.cos_sq_add_sin_sq, mul_one]

/-- C9: shouldExist is true at construction (both through the raw
constructor and through the factory), and the transition is
one-directional: once shouldExist is false, no update brings it back to
true. -/
theorem C9_shouldExist_one_directional :
    (∀ (x y vx vy o hs : α) (s : String) (d : α),
        (Bullet.init x y vx vy o hs s d).shouldExist = true) ∧
    (∀ (x y d : ℝ) (s : String), (Bullet.create x y d s).shouldExist = true) ∧
    (∀ (b : Bullet α) (inW : α → α → Bool) (t : α) (cl : List (Player α))
        (cs : List (Construct α)), b.shouldExist = false →
        (b.update inW t cl cs).bullet.shouldExist = false) := by
  refine ⟨fun _ _ _ _ _ _ _ _ => rfl, fun _ _ _ _ => rfl, ?_⟩
  intro b inW t cl cs hb
  rcases update_bullet_eq b inW t cl cs with h | h
  · rw [h, move_shouldExist, hb]
  · rw [h]

/-- Witness for the C9 theorem: a concrete already-dead bullet over the
rationals stays dead through an update. -/
theorem C9_shouldExist_one_directional_witness :
    (({ bTest with shouldExist := false } : Bullet ℚ).update openWorld 10
      [] []).bullet.shouldExist = false :=
  (C9_shouldExist_one_directional (α := ℚ)).2.2
    { bTest with shouldExist := false } openWorld 10 [] [] rfl

/-- C10: an update never changes vx, vy, orientation, hitboxSize, source
or damage: the velocity and all creation-time attributes are fixed for
the whole lifetime of the bullet. -/
theorem C10_creation_attributes_fixed (b : Bullet α) (inW : α → α → Bool)
    (t : α) (cl : List (Player α)) (cs : List (Construct α)) :
    (b.update inW t cl cs).bullet.vx = b.vx ∧
    (b.update inW t cl cs).bullet.vy = b.vy ∧
    (b.update inW t cl cs).bullet.orientation = b.orientation ∧
    (b.update inW t cl cs).bullet.hitboxSize = b.hitboxSize ∧
    (b.update inW t cl cs).bullet.source = b.source ∧
    (b.update inW t cl cs).bullet.damage = b.damage := by
  rcases update_bullet_eq b inW t cl cs with h | h <;> rw [h] <;>
    exact ⟨rfl, rfl, rfl, rfl, rfl, rfl⟩

/-- C6: when the travel distance after the motion phase exceeds the
maximum travel distance, or the position is outside world bounds, the
update marks the bullet dead and returns immediately with no collision
side effects: the registry and the construct list are returned unchanged
(in particular no player or construct is damaged and no kill counter
changes) and no fault is raised. -/
theorem C6_expiry_no_side_effects (b : Bullet α) (inW : α → α → Bool)
    (t : α) (cl : List (Player α)) (cs : List (Construct α))
    (h : (b.move t).distanceTraveled > MAX_TRAVEL_DISTANCE α ∨
      ¬ inW (b.move t).x (b.move t).y = true) :
    (b.update inW t cl cs).bullet.shouldExist = false ∧
    (b.update inW t cl cs).clients = cl ∧
    (b.update inW t cl cs).constructs = cs ∧
    (b.update inW t cl cs).fault = false := by
  rw [update_early b inW t cl cs h]
  exact ⟨rfl, rfl, rfl, rfl⟩

/-- Witness for the C6 theorem: a concrete over-distance bullet leaves a
populated world untouched while expiring. -/
theorem C6_expiry_no_side_effects_witness :
    ((bDist 1001).update openWorld 0 [pVictim] [cEnemyTurret]).bullet.shouldExist
        = false ∧
    ((bDist 1001).update openWorld 0 [pVictim] [cEnemyTurret]).clients
        = [pVictim] ∧
    ((bDist 1001).update openWorld 0 [pVictim] [cEnemyTurret]).constructs
        = [cEnemyTurret] ∧
    ((bDist 1001).update openWorld 0 [pVictim] [cEnemyTurret]).fault = false :=
  C6_expiry_no_side_effects _ openWorld 0 [pVictim] [cEnemyTurret]
    (Or.inl (by
      rw [move_distanceTraveled]
      norm_num [bDist, bTest, VELOCITY_MAGNITUDE, MAX_TRAVEL_DISTANCE]))

theorem bDist_move_distanceTraveled (d t : ℚ) :
    ((bDist d).move t).distanceTraveled = d + 17 / 20 * t := by
  rw [move_distanceTraveled]
  norm_num [bDist, bTest, VELOCITY_MAGNITUDE]

/-- C2 counterexample: a concrete bullet whose distanceTraveled is
exactly MAX_TRAVEL_DISTANCE = 1000 at the termination check (983 before
the tick plus 17 added by a 20 millisecond tick) is NOT marked dead on
that tick, refuting the claim that reaching exactly 1000 marks the
bullet dead: the code compares with strict greater-than. -/
theorem C2_boundary_counterexample :
    (((bDist 983).update openWorld 20 [] []).bullet.distanceTraveled =
      MAX_TRAVEL_DISTANCE ℚ) ∧
    (((bDist 983).update openWorld 20 [] []).bullet.shouldExist = true) := by
  have hterm : ¬ ((bDist 983).move 20).expires openWorld :=
    not_expires _ _
      (by rw [bDist_move_distanceTraveled]; norm_num [MAX_TRAVEL_DISTANCE]) rfl
  rw [update_noHit _ openWorld 20 [] [] hterm rfl rfl]
  exact ⟨by rw [bDist_move_distanceTraveled]; norm_num [MAX_TRAVEL_DISTANCE],
    rfl⟩

/-- C2 corrected: the distance check is strict: a bullet whose
distanceTraveled strictly exceeds MAX_TRAVEL_DISTANCE at the termination
check of an update is marked dead on that tick, while a bullet at
exactly MAX_TRAVEL_DISTANCE, or one unit below, is not marked dead by
the distance check (with an in-world position and no colliding targets
its liveness flag is unchanged). -/
theorem C2_amended_strict_distance_check (b : Bullet α) (inW : α → α → Bool)
    (t : α) (cl : List (Player α)) (cs : List (Construct α)) :
    ((b.move t).distanceTraveled > MAX_TRAVEL_DISTANCE α →
      (b.update inW t cl cs).bullet.shouldExist = false) ∧
    ((b.move t).distanceTraveled ≤ MAX_TRAVEL_DISTANCE α →
      inW (b.move t).x (b.move t).y = true →
      (b.update inW t [] []).bullet.shouldExist = b.shouldExist) := by
  constructor
  · intro hgt
    rw [update_early b inW t cl cs (expires_of_gt _ inW hgt)]
  · intro hle hin
    rw [update_noHit b inW t [] [] (not_expires _ inW hle hin) rfl rfl]
    exact move_shouldExist b t

/-- Witness for the C2 corrected theorem: with 1001 total the bullet is
marked dead; with 999 total it stays alive. -/
theorem C2_amended_strict_distance_check_witness :
    (((bDist 984).update openWorld 20 [] []).bullet.shouldExist = false) ∧
    (((bDist 982).update openWorld 20 [] []).bullet.shouldExist = true) :=
  ⟨(C2_amended_strict_distance_check (bDist 984) openWorld 20 [] []).1
      (by rw [bDist_move_distanceTraveled]; norm_num [MAX_TRAVEL_DISTANCE]),
   (C2_amended_strict_distance_check (bDist 982) openWorld 20 [] []).2
      (by rw [bDist_move_distanceTraveled]; norm_num [MAX_TRAVEL_DISTANCE])
      rfl⟩

theorem bTest_move10_not_expires : ¬ (bTest.move 10).expires openWorld :=
  not_expires _ _
    (by
      rw [move_distanceTraveled]
      norm_num [bTest, VELOCITY_MAGNITUDE, MAX_TRAVEL_DISTANCE])
    rfl

theorem bTest_hits_pVictim : (bTest.move 10).playerEligible pVictim = true := by
  have hcol : pVictim.isCollidedWith (bTest.move 10) = true := by
    simp only [Player.isCollidedWith, decide_eq_true_eq, move_x, move_y,
      move_hitboxSize]
    norm_num [bTest, pVictim]
  simp only [Bullet.playerEligible, move_source, hcol, Bool.and_true]
  decide

theorem pVictim_dies : (pVictim.damage (bTest.move 10).damage).isDead = true := by
  simp only [Player.isDead, Player.damage, move_damage, decide_eq_true_eq]
  norm_num [pVictim, bTest]

theorem creditKill_damaged_pVictim :
    creditKill bTest.source [pVictim.damage (bTest.move 10).damage] = none := by
  apply (creditKill_eq_none_iff _ _).mpr
  intro q hq
  have hq2 := List.mem_singleton.mp hq
  subst hq2
  decide

/-- C1 is refuted by the code and is recorded as a code bug: when the
lethal hit resolves while the shooter identity is absent from the
registry, clients.get(this.source) finds no player and
killingPlayer.kills++ raises a TypeError. The damage to the target has
already been applied when the fault fires, but the two statements after
the raising line never run, so the bullet is NOT marked dead, the kill
credit is not merely skipped, and a fault propagates out of the update.
Concretely: bTest (source identity shooter, absent from the registry)
lethally hits pVictim: the victim ends at 0 health, the fault flag is
raised, shouldExist stays true, and no kill counter changes. -/
theorem C1_absent_shooter_faults :
    (bTest.update openWorld 10 [pVictim] []).fault = true ∧
    (bTest.update openWorld 10 [pVictim] []).clients =
      [{ pVictim with health := 0 }] ∧
    (bTest.update openWorld 10 [pVictim] []).bullet.shouldExist = true ∧
    killsOf (bTest.update openWorld 10 [pVictim] []).clients "shooter" = 0 := by
  have hscan := scanPlayers_hit (bTest.move 10) [] pVictim []
    (by simp) bTest_hits_pVictim
  simp only [List.nil_append] at hscan
  rw [update_playerHit bTest openWorld 10 [pVictim] [] _ _
    bTest_move10_not_expires hscan]
  rw [if_pos pVictim_dies, creditKill_damaged_pVictim]
  refine ⟨rfl, ?_, rfl, ?_⟩
  · show [pVictim.damage (bTest.move 10).damage] = [{ pVictim with health := 0 }]
    norm_num [Player.damage, pVictim, move_damage, bTest, Player.mk.injEq]
  · show killsOf [pVictim.damage (bTest.move 10).damage] "shooter" = 0
    rw [killsOf_cons, killsOf_nil]
    simp [Player.damage, pVictim]

theorem killsOf_damage_middle (l1 : List (Player α)) (p : Player α) (d : α)
    (l2 : List (Player α)) (s : String) :
    killsOf (l1 ++ p.damage d :: l2) s = killsOf (l1 ++ p :: l2) s := by
  rw [killsOf_append, killsOf_append, killsOf_cons, killsOf_cons]
  rfl

/-- C7: when the update damages a player (the first guard-passing entry
of the registry) and the damaged player is then dead, the kill counter
of the shooter identity is incremented by exactly one and no other kill
counter changes; when the damaged player survives, no kill counter
anywhere changes. The shooter is assumed present in the registry: the
absent-shooter case faults instead, see the theorem about C1. -/
theorem C7_kill_attribution (b : Bullet α) (inW : α → α → Bool) (t : α)
    (l1 : List (Player α)) (p : Player α) (l2 : List (Player α))
    (cs : List (Construct α))
    (hterm : ¬ (b.move t).expires inW)
    (hskip : ∀ q ∈ l1, (b.move t).playerEligible q = false)
    (hhit : (b.move t).playerEligible p = true)
    (hsrc : ∃ q ∈ l1 ++ p :: l2, q.id = b.source) :
    ((p.damage b.damage).isDead = true →
      killsOf (b.update inW t (l1 ++ p :: l2) cs).clients b.source =
        killsOf (l1 ++ p :: l2) b.source + 1 ∧
      ∀ s2, s2 ≠ b.source →
        killsOf (b.update inW t (l1 ++ p :: l2) cs).clients s2 =
          killsOf (l1 ++ p :: l2) s2) ∧
    ((p.damage b.damage).isDead = false →
      ∀ s2, killsOf (b.update inW t (l1 ++ p :: l2) cs).clients s2 =
        killsOf (l1 ++ p :: l2) s2) := by
  have hscan := scanPlayers_hit (b.move t) l1 p l2 hskip hhit
  simp only [move_damage] at hscan
  rw [update_playerHit b inW t _ cs _ _ hterm hscan]
  constructor
  · intro hdead
    rw [if_pos hdead]
    have hsrc2 : ∃ q ∈ l1 ++ p.damage b.damage :: l2, q.id = b.source := by
      obtain ⟨q, hq, hid⟩ := hsrc
      rcases List.mem_append.mp hq with hq1 | hq2
      · exact ⟨q, List.mem_append_left _ hq1, hid⟩
      · rcases List.mem_cons.mp hq2 with hq3 | hq3
        · exfalso
          have hne := playerEligible_id_ne (b.move t) p hhit
          rw [move_source, ← hq3, hid] at hne
          simp at hne
        · exact ⟨q, List.mem_append_right _ (List.mem_cons_of_mem _ hq3), hid⟩
    obtain ⟨cl2, hck⟩ := creditKill_isSome b.source _ hsrc2
    rw [hck]
    obtain ⟨hinc, hoth⟩ := killsOf_creditKill b.source _ cl2 hck
    constructor
    · show killsOf cl2 b.source = _
      rw [hinc, killsOf_damage_middle]
    · intro s2 hs2
      show killsOf cl2 s2 = _
      rw [hoth s2 hs2, killsOf_damage_middle]
  · intro hns
    rw [if_neg (by simp [hns])]
    intro s2
    show killsOf (l1 ++ p.damage b.damage :: l2) s2 = _
    exact killsOf_damage_middle l1 p b.damage l2 s2

/-- Witness for the C7 theorem: the shooter, present in the registry,
gets exactly one more kill when its bullet lethally hits the victim. -/
theorem C7_kill_attribution_witness :
    killsOf (bTest.update openWorld 10 ([] ++ pVictim :: [pShooter]) []).clients
        bTest.source =
      killsOf ([] ++ pVictim :: [pShooter]) bTest.source + 1 :=
  ((C7_kill_attribution bTest openWorld 10 [] pVictim [pShooter] []
      bTest_move10_not_expires (by simp) bTest_hits_pVictim
      ⟨pShooter, by simp, rfl⟩).1
    (by simpa using pVictim_dies)).1

/-- C8: a bullet never damages its own shooter: for the source identity
of the bullet, the healths of the registry entries carrying that
identity are unchanged by every update (the guard skips the source
player, and the kill credit touches only the kill counter). -/
theorem C8_never_hits_own_shooter (b : Bullet α) (inW : α → α → Bool)
    (t : α) (cl : List (Player α)) (cs : List (Construct α)) :
    healthsOf (b.update inW t cl cs).clients b.source =
      healthsOf cl b.source := by
  by_cases hterm : (b.move t).expires inW
  · rw [update_early b inW t cl cs hterm]
  · cases hp : (b.move t).scanPlayers cl with
    | none =>
      cases hc : (b.move t).scanConstructs cs with
      | some cs1 => rw [update_constructHit b inW t cl cs cs1 hterm hp hc]
      | none => rw [update_noHit b inW t cl cs hterm hp hc]
    | some pr =>
      obtain ⟨cl1, dead⟩ := pr
      rw [update_playerHit b inW t cl cs cl1 dead hterm hp]
      obtain ⟨l1, p, l2, rfl, hskip, helig, hps, hd⟩ :=
        scanPlayers_eq_some _ cl _ _ hp
      subst hps
      subst hd
      have hpid : ((p.damage (b.move t).damage).id == b.source) = false := by
        have hne := playerEligible_id_ne (b.move t) p helig
        rw [move_source] at hne
        exact hne
      have hph : healthsOf (l1 ++ p.damage (b.move t).damage :: l2) b.source =
          healthsOf (l1 ++ p :: l2) b.source := by
        rw [healthsOf_append, healthsOf_append, healthsOf_cons, healthsOf_cons]
        have hpid2 : (p.id == b.source) = false := hpid
        rw [hpid, hpid2]
        simp
      by_cases hdead : (p.damage (b.move t).damage).isDead = true
      · rw [if_pos hdead]
        cases hck : creditKill b.source (l1 ++ p.damage (b.move t).damage :: l2)
          with
        | some cl2 =>
          show healthsOf cl2 _ = _
          rw [healthsOf_creditKill b.source b.source _ cl2 hck, hph]
        | none =>
          exact hph
      · rw [if_neg hdead]
        exact hph

theorem bTest_hits_pTough : (bTest.move 10).playerEligible pTough = true := by
  have hcol : pTough.isCollidedWith (bTest.move 10) = true := by
    simp only [Player.isCollidedWith, decide_eq_true_eq, move_x, move_y,
      move_hitboxSize]
    norm_num [bTest, pTough]
  simp only [Bullet.playerEligible, move_source, hcol, Bool.and_true]
  decide

theorem pShooter_not_eligible (t : ℚ) :
    (bTest.move t).playerEligible pShooter = false := by
  simp only [Bullet.playerEligible, move_source]
  have hbne : (bTest.source != pShooter.id) = false := by decide
  rw [hbne, Bool.false_and]

theorem bTest_hits_cEnemyTurret :
    (bTest.move 10).constructEligible cEnemyTurret = true := by
  have hcol : cEnemyTurret.isCollidedWith (bTest.move 10) = true := by
    simp only [Construct.isCollidedWith, decide_eq_true_eq, move_x, move_y,
      move_hitboxSize]
    norm_num [bTest, cEnemyTurret]
  simp only [Bullet.constructEligible, move_source, hcol, Bool.and_true]
  decide

theorem bTest_hits_cOwnWall :
    (bTest.move 10).constructEligible cOwnWall = true := by
  have hcol : cOwnWall.isCollidedWith (bTest.move 10) = true := by
    simp only [Construct.isCollidedWith, decide_eq_true_eq, move_x, move_y,
      move_hitboxSize]
    norm_num [bTest, cOwnWall]
  simp only [Bullet.constructEligible, move_source, hcol, Bool.and_true]
  decide

theorem cOwnTurret_not_eligible (t : ℚ) :
    (bTest.move t).constructEligible cOwnTurret = false := by
  simp only [Bullet.constructEligible, move_source]
  have hguard : ((bTest.source != cOwnTurret.owner) ||
      (cOwnTurret.type == ConstructType.WALL)) = false := by decide
  rw [hguard, Bool.false_and]

/-- C3: in every update at most one target is damaged, all players are
scanned before any construct, and the first guard-passing entity in
iteration order takes the hit. Part one: when some player passes the
guard (every earlier registry entry failing it), exactly that player is
damaged — registry healths change at its position only — and the
construct list is returned untouched, so a bullet overlapping both a
player and a construct damages only the player. Part two: when no
player passes the guard and some construct does (every earlier construct
failing it), exactly that construct is damaged and registry healths are
unchanged. Part three: when nothing passes either guard, registry and
constructs are returned unchanged. These cases and the expiry return are
exhaustive, so no update ever damages two entities. -/
theorem C3_first_match_wins :
    (∀ (b : Bullet α) (inW : α → α → Bool) (t : α) (l1 : List (Player α))
        (p : Player α) (l2 : List (Player α)) (cs : List (Construct α)),
      ¬ (b.move t).expires inW →
      (∀ q ∈ l1, (b.move t).playerEligible q = false) →
      (b.move t).playerEligible p = true →
      (b.update inW t (l1 ++ p :: l2) cs).clients.map Player.health =
        (l1 ++ p.damage b.damage :: l2).map Player.health ∧
      (b.update inW t (l1 ++ p :: l2) cs).constructs = cs) ∧
    (∀ (b : Bullet α) (inW : α → α → Bool) (t : α) (cl : List (Player α))
        (m1 : List (Construct α)) (c : Construct α) (m2 : List (Construct α)),
      ¬ (b.move t).expires inW →
      (∀ q ∈ cl, (b.move t).playerEligible q = false) →
      (∀ d ∈ m1, (b.move t).constructEligible d = false) →
      (b.move t).constructEligible c = true →
      (b.update inW t cl (m1 ++ c :: m2)).clients = cl ∧
      (b.update inW t cl (m1 ++ c :: m2)).constructs =
        m1 ++ c.damage b.damage :: m2) ∧
    (∀ (b : Bullet α) (inW : α → α → Bool) (t : α) (cl : List (Player α))
        (cs : List (Construct α)),
      ¬ (b.move t).expires inW →
      (∀ q ∈ cl, (b.move t).playerEligible q = false) →
      (∀ d ∈ cs, (b.move t).constructEligible d = false) →
      (b.update inW t cl cs).clients = cl ∧
      (b.update inW t cl cs).constructs = cs) := by
  refine ⟨?_, ?_, ?_⟩
  · intro b inW t l1 p l2 cs hterm hskip hhit
    have hscan := scanPlayers_hit (b.move t) l1 p l2 hskip hhit
    simp only [move_damage] at hscan
    rw [update_playerHit b inW t _ cs _ _ hterm hscan]
    by_cases hdead : (p.damage b.damage).isDead = true
    · rw [if_pos hdead]
      cases hck : creditKill b.source (l1 ++ p.damage b.damage :: l2) with
      | some cl2 => exact ⟨creditKill_map_health _ _ _ hck, rfl⟩
      | none => exact ⟨rfl, rfl⟩
    · rw [if_neg hdead]
      exact ⟨rfl, rfl⟩
  · intro b inW t cl m1 c m2 hterm hnop hskipc hhitc
    have hp : (b.move t).scanPlayers cl = none :=
      (scanPlayers_eq_none_iff _ cl).mpr hnop
    have hc := scanConstructs_hit (b.move t) m1 c m2 hskipc hhitc
    simp only [move_damage] at hc
    rw [update_constructHit b inW t cl _ _ hterm hp hc]
    exact ⟨rfl, rfl⟩
  · intro b inW t cl cs hterm hnop hnoc
    rw [update_noHit b inW t cl cs hterm
      ((scanPlayers_eq_none_iff _ cl).mpr hnop)
      ((scanConstructs_eq_none_iff _ cs).mpr hnoc)]
    exact ⟨rfl, rfl⟩

/-- Witness for the C3 theorem: a bullet overlapping both pTough and an
enemy turret damages only the player; with no eligible player the first
eligible construct is damaged; with nothing eligible nothing changes. -/
theorem C3_first_match_wins_witness :
    ((bTest.update openWorld 10 ([] ++ pTough :: []) [cEnemyTurret]).clients.map
        Player.health =
        ([] ++ pTough.damage bTest.damage :: []).map Player.health ∧
      (bTest.update openWorld 10 ([] ++ pTough :: []) [cEnemyTurret]).constructs =
        [cEnemyTurret]) ∧
    ((bTest.update openWorld 10 [pShooter] ([] ++ cEnemyTurret :: [])).clients =
        [pShooter] ∧
      (bTest.update openWorld 10 [pShooter]
          ([] ++ cEnemyTurret :: [])).constructs =
        [] ++ cEnemyTurret.damage bTest.damage :: []) ∧
    ((bTest.update openWorld 10 [pShooter] [cOwnTurret]).clients = [pShooter] ∧
      (bTest.update openWorld 10 [pShooter] [cOwnTurret]).constructs =
        [cOwnTurret]) :=
  ⟨(C3_first_match_wins (α := ℚ)).1 bTest openWorld 10 [] pTough [] [cEnemyTurret]
      bTest_move10_not_expires (by simp) bTest_hits_pTough,
   (C3_first_match_wins (α := ℚ)).2.1 bTest openWorld 10 [pShooter] []
      cEnemyTurret [] bTest_move10_not_expires
      (by
        intro q hq
        have hq2 := List.mem_singleton.mp hq
        subst hq2
        exact pShooter_not_eligible 10)
      (by simp) bTest_hits_cEnemyTurret,
   (C3_first_match_wins (α := ℚ)).2.2 bTest openWorld 10 [pShooter] [cOwnTurret]
      bTest_move10_not_expires
      (by
        intro q hq
        have hq2 := List.mem_singleton.mp hq
        subst hq2
        exact pShooter_not_eligible 10)
      (by
        intro d hd
        have hd2 := List.mem_singleton.mp hd
        subst hd2
        exact cOwnTurret_not_eligible 10)⟩

/-- C4: with no expiry and no player passing the guard, a lone construct
is damaged, and the bullet marked dead, exactly when (its owner differs
from the source of the bullet, or its type is WALL) and its hitbox
collides with the bullet; when the condition fails the construct is
untouched and the liveness flag of the bullet is unchanged. In
particular a shooter-owned colliding wall still takes damage, while a
construct list whose entries are all owned by the shooter and none of
them walls is never damaged by any update of that bullet. -/
theorem C4_construct_damage_iff :
    (∀ (b : Bullet α) (inW : α → α → Bool) (t : α) (cl : List (Player α))
        (c : Construct α),
      ¬ (b.move t).expires inW →
      (∀ q ∈ cl, (b.move t).playerEligible q = false) →
      (b.update inW t cl [c]).constructs =
        (if (b.source ≠ c.owner ∨ c.type = ConstructType.WALL) ∧
            c.isCollidedWith (b.move t) = true
         then [c.damage b.damage] else [c]) ∧
      (b.update inW t cl [c]).bullet.shouldExist =
        (if (b.source ≠ c.owner ∨ c.type = ConstructType.WALL) ∧
            c.isCollidedWith (b.move t) = true
         then false else b.shouldExist)) ∧
    (∀ (b : Bullet α) (inW : α → α → Bool) (t : α) (cl : List (Player α))
        (cs : List (Construct α)),
      (∀ d ∈ cs, d.owner = b.source ∧ d.type ≠ ConstructType.WALL) →
      (b.update inW t cl cs).constructs = cs) := by
  constructor
  · intro b inW t cl c hterm hnop
    have hp : (b.move t).scanPlayers cl = none :=
      (scanPlayers_eq_none_iff _ cl).mpr hnop
    have heq : (b.move t).constructEligible c = true ↔
        ((b.source ≠ c.owner ∨ c.type = ConstructType.WALL) ∧
          c.isCollidedWith (b.move t) = true) := by
      simp [Bullet.constructEligible, move_source, Bool.and_eq_true,
        Bool.or_eq_true, bne_iff_ne, beq_iff_eq]
    by_cases hce : (b.move t).constructEligible c = true
    · have hc := scanConstructs_hit (b.move t) [] c [] (by simp) hce
      simp only [List.nil_append, move_damage] at hc
      rw [update_constructHit b inW t cl [c] _ hterm hp hc]
      rw [if_pos (heq.mp hce), if_pos (heq.mp hce)]
      exact ⟨rfl, rfl⟩
    · rw [Bool.not_eq_true] at hce
      have hcnone : (b.move t).scanConstructs [c] = none :=
        (scanConstructs_eq_none_iff _ _).mpr (by
          intro d hd
          have hd2 := List.mem_singleton.mp hd
          subst hd2
          exact hce)
      rw [update_noHit b inW t cl [c] hterm hp hcnone]
      have hncond : ¬ ((b.source ≠ c.owner ∨ c.type = ConstructType.WALL) ∧
          c.isCollidedWith (b.move t) = true) := by
        intro hcond
        have h2 := heq.mpr hcond
        rw [hce] at h2
        simp at h2
      rw [if_neg hncond, if_neg hncond]
      exact ⟨rfl, move_shouldExist b t⟩
  · intro b inW t cl cs hall
    have hcnone : (b.move t).scanConstructs cs = none :=
      (scanConstructs_eq_none_iff _ _).mpr (by
        intro d hd
        obtain ⟨ho, ht⟩ := hall d hd
        simp [Bullet.constructEligible, move_source, ho, ht])
    by_cases hterm : (b.move t).expires inW
    · rw [update_early b inW t cl cs hterm]
    · cases hp : (b.move t).scanPlayers cl with
      | some pr =>
        obtain ⟨cl1, dead⟩ := pr
        rw [update_playerHit b inW t cl cs cl1 dead hterm hp]
        by_cases hdead : dead = true
        · rw [if_pos hdead]
          cases hck : creditKill b.source cl1 with
          | some cl2 => rfl
          | none => rfl
        · rw [if_neg hdead]
      | none =>
        rw [update_noHit b inW t cl cs hterm hp hcnone]

/-- Witness for the C4 theorem: a shooter-owned wall colliding with the
bullet of its owner is damaged and the bullet marked dead; a
shooter-owned turret is not damaged. -/
theorem C4_construct_damage_iff_witness :
    ((bTest.update openWorld 10 [pShooter] [cOwnWall]).constructs =
      (if (bTest.source ≠ cOwnWall.owner ∨ cOwnWall.type = ConstructType.WALL) ∧
          cOwnWall.isCollidedWith (bTest.move 10) = true
       then [cOwnWall.damage bTest.damage] else [cOwnWall]) ∧
     (bTest.update openWorld 10 [pShooter] [cOwnWall]).bullet.shouldExist =
      (if (bTest.source ≠ cOwnWall.owner ∨ cOwnWall.type = ConstructType.WALL) ∧
          cOwnWall.isCollidedWith (bTest.move 10) = true
       then false else bTest.shouldExist)) ∧
    ((bTest.update openWorld 10 [pShooter] [cOwnTurret]).constructs =
      [cOwnTurret]) :=
  ⟨(C4_construct_damage_iff (α := ℚ)).1 bTest openWorld 10 [pShooter] cOwnWall
      bTest_move10_not_expires
      (by
        intro q hq
        have hq2 := List.mem_singleton.mp hq
        subst hq2
        exact pShooter_not_eligible 10),
   (C4_construct_damage_iff (α := ℚ)).2 bTest openWorld 10 [pShooter]
      [cOwnTurret]
      (by
        intro d hd
        have hd2 := List.mem_singleton.mp hd
        subst hd2
        exact ⟨rfl, by decide⟩)⟩

end Obsidio
